import Mathlib

/-!
Verification of the GDMKGLM hybrid retrieval engine.

This file shallowly embeds the retrieval core of the repository:
`src/graphrag/embeddings.py` (chunking, similarity search, snapshot
persistence), `src/graphrag/graph_retriever.py` (entity extraction,
graph retrieval, relevance scoring) and
`src/graphrag/hybrid_retriever.py` (query classification, score and
context fusion).

Modelling conventions:
- Python strings are sequences of Unicode code points; they are embedded
  as `List Char` (named `Str`).  Python `len`, slicing, `in`, `lower`,
  `strip`, `split` become the corresponding list operations.
- Python floats are embedded as exact rationals `ℚ`; the numeric claims
  proved here (clamping bounds, zero results, formula structure) do not
  depend on binary rounding.
- Calls into the external Neo4j store and the embedding model are
  represented by oracle functions returning `Except Str α`: an `.error`
  value models a raised exception, which the retrievers catch.
- Wall-clock timing fields are modelled as the constant 0.
-/

/-- Python strings as lists of code points. -/
abbrev Str := List Char

/-- Coercion from Lean string literals to the embedded string type. -/
def strOf (s : String) : Str := s.data

/-- Python `needle in hay` on strings (substring containment). -/
def strContains (hay needle : Str) : Bool := decide (needle <:+: hay)

/-- Python `str.lower` (code-point-wise lowering; the repository's data is
Chinese plus ASCII, on which this matches CPython). -/
def lowerStr (s : Str) : Str := s.map Char.toLower

/-- ASCII whitespace recognised by Python's `str.strip`/`\s` on the
repository's data. -/
def isPySpace (c : Char) : Bool :=
  c == ' ' || c == '\t' || c == '\n' || c == '\r' || c == '\x0b' || c == '\x0c'

/-- Python `str.strip()`. -/
def stripStr (s : Str) : Str :=
  ((s.dropWhile isPySpace).reverse.dropWhile isPySpace).reverse

/-- Scanner for Python `str.split()`: `cur` holds the reversed pending
word. -/
def pySplitAux (cur : Str) : Str → List Str
  | [] => if cur = [] then [] else [cur.reverse]
  | c :: rest =>
    if isPySpace c then
      (if cur = [] then [] else [cur.reverse]) ++ pySplitAux [] rest
    else pySplitAux (c :: cur) rest

/-- Python `str.split()` (split on whitespace runs, dropping empties). -/
def pySplit (s : Str) : List Str := pySplitAux [] s

/-- Python `sep.join(parts)`. -/
def joinSep (sep : Str) : List Str → Str
  | [] => []
  | [x] => x
  | x :: y :: xs => x ++ sep ++ joinSep sep (y :: xs)

/-- Scanner for `re.sub(r'\n+', '\n', text)`: `inRun` records whether the
previous character was a newline. -/
def collapseNewlinesAux (inRun : Bool) : Str → Str
  | [] => []
  | c :: rest =>
    if c = '\n' then
      (if inRun then [] else ['\n']) ++ collapseNewlinesAux true rest
    else c :: collapseNewlinesAux false rest

/-- Substitution `re.sub(r'\n+', '\n', text)`: collapse newline runs. -/
def collapseNewlines (s : Str) : Str := collapseNewlinesAux false s

/-- Scanner for `re.sub(r'\s+', ' ', text)`: `inRun` records whether the
previous character was whitespace. -/
def collapseSpacesAux (inRun : Bool) : Str → Str
  | [] => []
  | c :: rest =>
    if isPySpace c then
      (if inRun then [] else [' ']) ++ collapseSpacesAux true rest
    else c :: collapseSpacesAux false rest

/-- Substitution `re.sub(r'\s+', ' ', text)`: collapse whitespace runs. -/
def collapseSpaces (s : Str) : Str := collapseSpacesAux false s

/-- Characters of the sentence-splitting class `[。.!！？?；;]` in
`EmbeddingEngine._smart_text_chunking`. -/
def isSplitterChar (c : Char) : Bool :=
  c == '。' || c == '.' || c == '!' || c == '！' || c == '？' || c == '?' ||
  c == '；' || c == ';'

/-- Scanner for `re.split(r'[。.!！？?；;]\s*', text)`: each splitter char
ends a token; `skipWs` records that the `\s*` tail of a match is still
being consumed. -/
def splitSentencesAux (skipWs : Bool) (acc : Str) : Str → List Str
  | [] => [acc.reverse]
  | c :: rest =>
    if skipWs && isPySpace c then splitSentencesAux true acc rest
    else if isSplitterChar c then acc.reverse :: splitSentencesAux true [] rest
    else splitSentencesAux false (c :: acc) rest

/-- Sentence split used by the chunker. -/
def splitSentences (s : Str) : List Str := splitSentencesAux false [] s

/-- The comprehension `[s.strip() for s in sentences if s.strip()]`. -/
def cleanSentences (l : List Str) : List Str :=
  (l.map stripStr).filter (· ≠ [])

/-- One step of the greedy word packing in `EmbeddingEngine._force_split`:
state is (finished chunks, words of the current chunk, current length). -/
def forceSplitStep (chunkSize : Nat) (st : List Str × List Str × Nat)
    (word : Str) : List Str × List Str × Nat :=
  let (chunks, cur, curLen) := st
  if curLen + word.length ≤ chunkSize then
    (chunks, cur ++ [word], curLen + word.length + 1)
  else
    ((if cur ≠ [] then chunks ++ [joinSep [' '] cur] else chunks),
     [word], word.length)

/-- Embedding of `EmbeddingEngine._force_split`. -/
def forceSplit (chunkSize : Nat) (text : Str) : List Str :=
  let (chunks, cur, _) := (pySplit text).foldl (forceSplitStep chunkSize) ([], [], 0)
  if cur ≠ [] then chunks ++ [joinSep [' '] cur] else chunks

/-- Overlap carried from the previous chunk in
`EmbeddingEngine._add_overlap`. -/
def overlapChunk (overlapSize : Nat) (prev cur : Str) : Str :=
  let prevWords := pySplit prev
  if overlapSize < prevWords.length then
    joinSep [' '] (prevWords.drop (prevWords.length - overlapSize)) ++ ' ' :: cur
  else cur

/-- Embedding of `EmbeddingEngine._add_overlap`. -/
def addOverlap (overlapSize : Nat) : List Str → List Str
  | [] => []
  | c :: cs => c :: List.zipWith (overlapChunk overlapSize) (c :: cs) cs

/-- One step of the sentence-packing loop in
`EmbeddingEngine._smart_text_chunking`: state is (finished chunks,
current chunk text). -/
def chunkStep (chunkSize : Nat) (st : List Str × Str) (sentence : Str) :
    List Str × Str :=
  let (chunks, current) := st
  let temp := current ++ sentence ++ ['。']
  if temp.length ≤ chunkSize then (chunks, temp)
  else
    let chunks := if current ≠ [] then chunks ++ [stripStr current] else chunks
    if chunkSize < sentence.length then (chunks ++ forceSplit chunkSize sentence, [])
    else (chunks, sentence ++ ['。'])

/-- Embedding of `EmbeddingEngine._smart_text_chunking`. -/
def smartTextChunking (chunkSize overlapSize : Nat) (text : Str) : List Str :=
  if stripStr text = [] then []
  else
    let cleaned := collapseSpaces (collapseNewlines text)
    let sentences := cleanSentences (splitSentences cleaned)
    if sentences = [] then
      if cleaned.length ≤ chunkSize then [cleaned] else forceSplit chunkSize cleaned
    else
      let (chunks0, current) := sentences.foldl (chunkStep chunkSize) ([], [])
      let chunks1 := if current ≠ [] then chunks0 ++ [stripStr current] else chunks0
      let chunks2 :=
        if 1 < chunks1.length ∧ 0 < overlapSize then addOverlap overlapSize chunks1
        else chunks1
      chunks2.filter (fun c => stripStr c ≠ [])

/-- One entry of `EmbeddingEngine.medical_entities`: a literal stem, an
optional one-character class (regex `[...]`), then `[^。]*?。`. -/
structure DomainPattern where
  pre : Str
  cls : List Char

/-- The fixed domain-term pattern list `EmbeddingEngine.medical_entities`.
A regex `[监测|控制|管理]` is a character class in Python, so it is kept
as the set of its characters. -/
def medicalEntityPatterns : List DomainPattern :=
  [ ⟨strOf "妊娠期糖尿病", []⟩,
    ⟨strOf "gestational diabetes mellitus", []⟩,
    ⟨strOf "血糖", strOf "监测|控制|管理"⟩,
    ⟨strOf "胰岛素", strOf "治疗|注射|使用"⟩,
    ⟨strOf "孕期", strOf "营养|管理|保健"⟩,
    ⟨strOf "围产期", strOf "并发症|管理"⟩ ]

/-- The regex tail `[^。]*?。`: a run of non-`。` characters closed by `。`. -/
def bodyThenStop (m : Str) : Bool :=
  m.getLast? == some '。' && m.dropLast.all (fun c => !(c == '。'))

/-- Whether a whole string is matched by one domain-term pattern. -/
def matchesDomainPattern (p : DomainPattern) (s : Str) : Bool :=
  p.pre.isPrefixOf s &&
  (let rest := s.drop p.pre.length
   if p.cls.isEmpty then bodyThenStop rest
   else
     match rest with
     | [] => false
     | c :: m => p.cls.contains c && bodyThenStop m)

/-- Whether some substring of the text matches a domain-term pattern. -/
def hasDomainTermMatch (t : Str) : Bool :=
  t.tails.any fun suf => suf.inits.any fun s =>
    medicalEntityPatterns.any fun p => matchesDomainPattern p s

/-- Embedding of the `DocumentChunk` dataclass.  The open metadata dict
is modelled as a string-to-string association list (the retrieval code
only reads string-valued entries such as `data_type`). -/
structure DocumentChunk where
  chunk_id : Str
  text : Str
  source_file : Str
  metadata : List (Str × Str)
  vector : Option (List ℚ) := none
deriving DecidableEq

/-- Python `metadata.get(key)` on the modelled dict. -/
def lookupMeta (m : List (Str × Str)) (k : Str) : Option Str :=
  (m.find? (fun kv => kv.1 == k)).map Prod.snd

/-- Mutable state of `EmbeddingEngine` relevant to search and persistence. -/
structure EngineState where
  model_name : Str
  chunk_size : Nat
  overlap_size : Nat
  hasModel : Bool
  chunks : List DocumentChunk
  vectors : Option (List (List ℚ))
deriving DecidableEq

/-- Dot product, `np.dot` of an index row with the query vector. -/
def dotQ (a b : List ℚ) : ℚ := ((List.zip a b).map fun p => p.1 * p.2).sum

/-- Stable insertion keeping the list sorted by non-increasing key
(Python's stable `sort(key=..., reverse=True)`). -/
def insertDesc {α : Type} (key : α → ℚ) (x : α) : List α → List α
  | [] => [x]
  | y :: ys => if key y ≤ key x then x :: y :: ys else y :: insertDesc key x ys

/-- Stable descending sort by a rational key. -/
def sortDesc {α : Type} (key : α → ℚ) (l : List α) : List α :=
  l.foldr (insertDesc key) []

/-- The `filter_type` test in `EmbeddingEngine.similarity_search`:
a chunk is kept unless the filter is truthy and its `data_type`
metadata differs from it. -/
def keepByFilter (filter_type : Option Str) (c : DocumentChunk) : Bool :=
  match filter_type with
  | none => true
  | some ft =>
      if ft = [] then true
      else lookupMeta c.metadata (strOf "data_type") == some ft

/-- Embedding of `EmbeddingEngine.similarity_search`.  The embedding
model is an oracle `encode`; `.error` models a raised exception, which
the function catches and converts to an empty result. -/
def similarity_search (st : EngineState) (encode : Str → Except Str (List ℚ))
    (query : Str) (top_k : Nat) (filter_type : Option Str) (min_score : ℚ) :
    List (DocumentChunk × ℚ) :=
  if st.chunks = [] then []
  else
    match st.vectors with
    | none => []
    | some vecs =>
      if !st.hasModel then []
      else
        match encode query with
        | .error _ => []
        | .ok qv =>
          let sims := vecs.map (fun row => dotQ row qv)
          let pairs := st.chunks.zip sims
          let valid := pairs.filter fun cs =>
            keepByFilter filter_type cs.1 && !(cs.2 < min_score)
          (sortDesc Prod.snd valid).take top_k

/-- Header of a persisted snapshot (`save_data["metadata"]`). -/
structure SnapshotMeta where
  model_name : Str
  chunk_size : Nat
  overlap_size : Nat
  total_chunks : Nat
  vector_dimension : Nat
  version : Str
deriving DecidableEq

/-- One serialized chunk record of a snapshot. -/
structure SnapshotChunk where
  chunk_id : Str
  text : Str
  source_file : Str
  metadata : List (Str × Str)
  vector : Option (List ℚ)
deriving DecidableEq

/-- A persisted snapshot: self-describing header plus chunk records. -/
structure SnapshotData where
  metadata : SnapshotMeta
  chunks : List SnapshotChunk
deriving DecidableEq

/-- The format version `save_vectors` records in the header. -/
def snapshotVersion : Str := strOf "2.0"

/-- Embedding of `EmbeddingEngine.save_vectors`: `none` models the
empty-path failure return when there is no data to save. -/
def save_vectors (st : EngineState) : Option SnapshotData :=
  if st.chunks = [] ∨ st.vectors = none then none
  else
    some
      { metadata :=
          { model_name := st.model_name, chunk_size := st.chunk_size,
            overlap_size := st.overlap_size, total_chunks := st.chunks.length,
            vector_dimension :=
              match st.vectors with
              | some (r :: _) => r.length
              | some [] => 0
              | none => 0,
            version := snapshotVersion },
        chunks := st.chunks.map fun c =>
          { chunk_id := c.chunk_id, text := c.text,
            source_file := c.source_file, metadata := c.metadata,
            vector := c.vector } }

/-- Truthiness of a stored vector in `load_vectors`: Python's
`np.array(v) if chunk_data["vector"] else None` maps both `None` and
the empty list to `None`. -/
def pyVecLoad (v : Option (List ℚ)) : Option (List ℚ) :=
  match v with
  | some w => if w = [] then none else some w
  | none => none

/-- Embedding of `EmbeddingEngine.load_vectors`.  The snapshot medium is
an oracle: `none` models a missing file, `some (.error e)` an unreadable
file (the caught `pickle` exception), `some (.ok d)` readable data.
Returns the updated state and the boolean success flag. -/
def load_vectors (st : EngineState) (file : Option (Except Str SnapshotData)) :
    EngineState × Bool :=
  match file with
  | none => (st, false)
  | some (.error _) => (st, false)
  | some (.ok d) =>
    let chunks := d.chunks.map fun c =>
      ({ chunk_id := c.chunk_id, text := c.text, source_file := c.source_file,
         metadata := c.metadata, vector := pyVecLoad c.vector } : DocumentChunk)
    let vectors :=
      match chunks with
      | [] => st.vectors
      | c :: _ =>
          if c.vector.isSome then some (chunks.map fun ch => ch.vector.getD [])
          else st.vectors
    ({ st with chunks := chunks, vectors := vectors }, true)

/-- Helper to embed a list of string literals. -/
def strsOf (l : List String) : List Str := l.map String.data

/-- Embedding of the `GraphNode` dataclass.  The open property map is
modelled as a string-to-string association list: the retrieval code
reads property values only through `isinstance(value, str)` guards,
truthiness and substring tests. -/
structure GraphNode where
  id : Str
  name : Str
  label : Str
  properties : List (Str × Str)
deriving DecidableEq

/-- Embedding of the `GraphRelation` dataclass. -/
structure GraphRelation where
  source : Str
  target : Str
  relation_type : Str
  properties : List (Str × Str)
deriving DecidableEq

/-- Embedding of the `GraphSearchResult` dataclass.  The wall-clock
`retrieval_time` is modelled as 0. -/
structure GraphSearchResult where
  entities : List GraphNode
  relations : List GraphRelation
  context_text : Str
  relevance_score : ℚ
  search_keywords : List Str
  search_strategy : Str
  retrieval_time : ℚ
deriving DecidableEq

/-- One neighbor row returned by `GraphTool.get_entity_neighbors`
(the retriever reads only `relation` and `name`). -/
structure NeighborRec where
  name : Str
  relation : Str
deriving DecidableEq

/-- Result dict of `GraphTool.get_entity_neighbors`: the `center`
entry (None or a name/type record) and the `all` neighbor list. -/
structure NeighborInfo where
  center : Option (Str × Str)
  all : List NeighborRec
deriving DecidableEq

/-- Oracle interface to the external Neo4j-backed `GraphTool`.  Every
call may raise; `.error e` models an exception with message `e`. -/
structure GraphToolOracle where
  find_entity_by_name : Str → Bool → Except Str (List GraphNode)
  get_question_context : Str → Except Str Str
  get_entity_neighbors : Str → Except Str NeighborInfo

/-- The curated vocabulary `GraphRetriever.medical_keywords`. -/
def medicalKeywords : List (Str × List Str) :=
  [ (strOf "疾病", strsOf ["糖尿病", "高血压", "心脏病", "妊娠期糖尿病", "GDM", "妊高症", "贫血", "感染"]),
    (strOf "症状", strsOf ["多饮", "多尿", "多食", "体重下降", "疲劳", "头痛", "水肿", "蛋白尿", "血压升高"]),
    (strOf "治疗", strsOf ["胰岛素", "运动", "饮食", "药物", "监测", "控制", "管理", "注射", "口服药"]),
    (strOf "检查", strsOf ["血糖", "尿糖", "糖耐量", "检测", "筛查", "OGTT", "血压", "尿蛋白", "B超"]),
    (strOf "风险", strsOf ["遗传", "肥胖", "年龄", "家族史", "孕期", "高龄", "既往史", "BMI"]),
    (strOf "营养", strsOf ["饮食", "食物", "营养", "热量", "碳水化合物", "蛋白质", "脂肪", "维生素"]),
    (strOf "并发症", strsOf ["早产", "巨大儿", "低血糖", "酮症", "感染", "羊水过多", "胎儿窘迫"]) ]

/-- The phrase table `GraphRetriever.question_patterns`, in dict order. -/
def questionPatterns : List (Str × List Str) :=
  [ (strOf "症状", strsOf ["症状有哪些", "有什么症状", "什么症状", "症状是什么", "表现为", "有哪些表现"]),
    (strOf "诊断", strsOf ["如何诊断", "诊断方法", "怎么诊断", "如何检查", "检查什么", "诊断标准"]),
    (strOf "治疗", strsOf ["如何治疗", "治疗方法", "怎么治", "用什么药", "如何管理", "治疗"]),
    (strOf "原因", strsOf ["什么原因", "为什么", "病因", "引起", "导致", "原因"]),
    (strOf "预防", strsOf ["如何预防", "预防方法", "怎样避免", "防止", "预防措施"]),
    (strOf "饮食", strsOf ["饮食管理", "吃什么", "饮食", "食物", "营养", "不能吃", "应该吃"]),
    (strOf "风险", strsOf ["什么风险", "有什么风险", "危险因素", "风险", "高危", "容易得", "易患"]) ]

/-- A `medical_patterns` regex: a literal with negative look-behind and
negative look-ahead alternatives. -/
structure MedPattern where
  lit : Str
  notBehind : List Str
  notAhead : List Str

/-- The `medical_patterns` list of `extract_medical_entities`. -/
def medicalPatterns : List MedPattern :=
  [ ⟨strOf "妊娠期糖尿病", [], []⟩,
    ⟨strOf "糖尿病", [strOf "妊娠期"], strsOf ["的症状有哪些", "如何诊断"]⟩,
    ⟨strOf "高血压", [], []⟩,
    ⟨strOf "血糖", [], [strOf "高有什么风险"]⟩,
    ⟨strOf "胰岛素", [], []⟩,
    ⟨strOf "糖耐量", [], [strOf "检查怎么做"]⟩,
    ⟨strOf "OGTT", [], []⟩ ]

/-- Whether a `medical_patterns` regex matches at position `i` of `t`. -/
def matchAtPos (p : MedPattern) (t : Str) (i : Nat) : Bool :=
  p.lit.isPrefixOf (t.drop i) &&
  p.notBehind.all (fun b => !(b.isSuffixOf (t.take i))) &&
  p.notAhead.all (fun a => !(a.isPrefixOf (t.drop (i + p.lit.length))))

/-- Left-to-right non-overlapping scan of `re.findall` for one
`medical_patterns` regex (fuel-indexed; positions advance each step). -/
def findallAux (p : MedPattern) (t : Str) : Nat → Nat → List Str
  | _, 0 => []
  | i, fuel + 1 =>
    if t.length ≤ i then []
    else if matchAtPos p t i then p.lit :: findallAux p t (i + p.lit.length) fuel
    else findallAux p t (i + 1) fuel

/-- All matches of one `medical_patterns` regex in `t`. -/
def findallMed (p : MedPattern) (t : Str) : List Str :=
  findallAux p t 0 (t.length + 1)

/-- The regex range `[一-鿿]` (CJK unified ideographs). -/
def isCJK (c : Char) : Bool := 0x4e00 ≤ c.toNat && c.toNat ≤ 0x9fff

/-- Fuel-indexed scanner for `re.findall(r'[一-鿿]{2,4}', query)`:
greedy 2-to-4 character CJK matches, left to right, non-overlapping.
Each step consumes at least one character, so fuel equal to the string
length is enough. -/
def cjkExtract24Aux : Nat → Str → List Str
  | 0, _ => []
  | _, [] => []
  | fuel + 1, c :: rest =>
    if isCJK c ∧ 2 ≤ ((c :: rest).takeWhile isCJK).length then
      ((c :: rest).takeWhile isCJK).take 4 ::
        cjkExtract24Aux fuel ((c :: rest).drop (min 4 ((c :: rest).takeWhile isCJK).length))
    else cjkExtract24Aux fuel rest

/-- `re.findall(r'[一-鿿]{2,4}', query)`. -/
def cjkExtract24 (s : Str) : List Str := cjkExtract24Aux s.length s

/-- Scanner for the maximal CJK runs of a string: `cur` holds the
reversed pending run. -/
def cjkRunsAux (cur : Str) : Str → List Str
  | [] => if cur = [] then [] else [cur.reverse]
  | c :: rest =>
    if isCJK c then cjkRunsAux (c :: cur) rest
    else (if cur = [] then [] else [cur.reverse]) ++ cjkRunsAux [] rest

/-- Maximal CJK runs of a string (for `[一-鿿]{2,}` the greedy
matches are exactly the maximal runs). -/
def cjkRuns (s : Str) : List Str := cjkRunsAux [] s

/-- `re.findall(r'[一-鿿]{2,}', s)`: maximal CJK runs of length
at least 2. -/
def cjkWords2 (s : Str) : List Str := (cjkRuns s).filter (fun w => 2 ≤ w.length)

/-- Stopword set of the fallback branch of `extract_medical_entities`. -/
def extractStopwords : List Str :=
  strsOf ["什么", "哪些", "如何", "怎么", "怎样", "为什么", "有什么", "是什么", "症状", "治疗"]

/-- Order-preserving de-duplication, `list(dict.fromkeys(l))`. -/
def dedupeKeepFirstAux (seen : List Str) : List Str → List Str
  | [] => []
  | x :: xs =>
    if seen.contains x then dedupeKeepFirstAux seen xs
    else x :: dedupeKeepFirstAux (x :: seen) xs

/-- Order-preserving de-duplication of keyword lists. -/
def dedupeKeepFirst (l : List Str) : List Str := dedupeKeepFirstAux [] l

/-- Embedding of `GraphRetriever.extract_medical_entities`: returns the
extracted keywords (deduplicated, capped at 5) and the question type. -/
def extract_medical_entities (query : Str) : List Str × Str :=
  let question_type :=
    match questionPatterns.find? (fun qp => qp.2.any (fun pat => strContains query pat)) with
    | some qp => qp.1
    | none => strOf "general"
  let fromVocab := (medicalKeywords.map Prod.snd).flatten.filter (fun kw => strContains query kw)
  let fromPatterns := (medicalPatterns.map (fun p => findallMed p query)).flatten
  let entities0 := fromVocab ++ fromPatterns
  let entities :=
    if entities0 = [] then
      (cjkExtract24 query).filter
        (fun w => !extractStopwords.contains w && 2 ≤ w.length)
    else entities0
  ((dedupeKeepFirst entities).take 5, question_type)

/-- The merged expansion map `all_expansions` of
`GraphRetriever._expand_medical_search` (disease, symptom and test
expansions; keys are distinct, dict-merge order kept). -/
def allExpansions : List (Str × List Str) :=
  [ (strOf "糖尿病", strsOf ["妊娠期糖尿病", "2型糖尿病", "1型糖尿病"]),
    (strOf "高血压", strsOf ["妊娠期高血压", "妊高症"]),
    (strOf "感染", strsOf ["泌尿系感染", "呼吸道感染"]),
    (strOf "多饮", strsOf ["烦渴", "口干"]),
    (strOf "多尿", strsOf ["尿频", "夜尿增多"]),
    (strOf "疲劳", strsOf ["乏力", "疲乏"]),
    (strOf "血糖", strsOf ["空腹血糖", "餐后血糖", "随机血糖"]),
    (strOf "糖耐量", strsOf ["OGTT", "葡萄糖耐量试验"]) ]

/-- Expansion terms for a keyword (empty when not in the map). -/
def expansionsFor (kw : Str) : List Str :=
  match allExpansions.find? (fun e => e.1 == kw) with
  | some e => e.2
  | none => []

/-- Fuzzy lookups for a list of terms, concatenated in order. -/
def findManyFuzzy (tool : GraphToolOracle) : List Str → Except Str (List GraphNode)
  | [] => .ok []
  | t :: ts => do
    let es ← tool.find_entity_by_name t true
    let rest ← findManyFuzzy tool ts
    .ok (es ++ rest)

/-- Embedding of `GraphRetriever._expand_medical_search`. -/
def expandMedicalSearch (tool : GraphToolOracle) (kw : Str) :
    Except Str (List GraphNode) :=
  findManyFuzzy tool (expansionsFor kw)

/-- The expansion guard in `search_entities` (its inner comprehension
variable shadows the outer list, so it tests membership of the current
keyword in some vocabulary category). -/
def keywordIsMedical (kw : Str) : Bool :=
  medicalKeywords.any fun cat => cat.2.contains kw

/-- The accumulation loop of `search_entities`: exact, fuzzy and
expanded lookups per keyword, concatenated in order. -/
def collectEntities (tool : GraphToolOracle) : List Str → Except Str (List GraphNode)
  | [] => .ok []
  | kw :: rest => do
    let exact ← tool.find_entity_by_name kw false
    let fuzzy ← tool.find_entity_by_name kw true
    let expanded ← if keywordIsMedical kw then expandMedicalSearch tool kw else .ok []
    let more ← collectEntities tool rest
    .ok (exact ++ fuzzy ++ expanded ++ more)

/-- De-duplication by entity id keeping first occurrences
(`unique_entities` dict in `search_entities`). -/
def dedupeByIdAux (seen : List Str) : List GraphNode → List GraphNode
  | [] => []
  | e :: es =>
    if seen.contains e.id then dedupeByIdAux seen es
    else e :: dedupeByIdAux (e.id :: seen) es

/-- De-duplication by entity id. -/
def dedupeById (l : List GraphNode) : List GraphNode := dedupeByIdAux [] l

/-- The `important_types` list of `_rank_entities_by_relevance`. -/
def importantTypes : List Str := strsOf ["Disease", "Symptom", "Treatment", "DiagnosticMethod"]

/-- Name-match part of the ranking score of `_rank_entities_by_relevance`. -/
def rankNameScore (keywords : List Str) (enl : Str) : ℚ :=
  (keywords.map fun kw =>
    let kwl := lowerStr kw
    if kwl = enl then (10 : ℚ)
    else if strContains enl kwl then 5
    else if strContains kwl enl then 3
    else 0).sum

/-- Property-match part of the ranking score: one point per
(property value, keyword) substring hit. -/
def rankPropScore (keywords : List Str) (e : GraphNode) : ℚ :=
  if e.properties = [] then 0
  else (e.properties.map fun kv =>
      ((keywords.filter fun kw => strContains (lowerStr kv.2) (lowerStr kw)).length : ℚ)).sum

/-- The per-entity relevance used for ranking in
`_rank_entities_by_relevance`. -/
def entityRankScore (keywords : List Str) (e : GraphNode) : ℚ :=
  rankNameScore keywords (lowerStr e.name) +
  (if importantTypes.contains e.label then 2 else 0) +
  rankPropScore keywords e

/-- Embedding of `GraphRetriever._rank_entities_by_relevance` (stable
descending sort by the ranking score). -/
def rankEntities (entities : List GraphNode) (keywords : List Str) : List GraphNode :=
  sortDesc (entityRankScore keywords) entities

/-- Embedding of `GraphRetriever.search_entities`. -/
def search_entities (tool : GraphToolOracle) (keywords : List Str) :
    Except Str (List GraphNode) := do
  let all ← collectEntities tool keywords
  .ok ((rankEntities (dedupeById all) keywords).take 20)

/-- The entity-information block built in `get_entity_context`:
label, name, and up to three truthy non-id properties. -/
def entityInfoText (e : GraphNode) : Str :=
  let base := strOf "【" ++ e.label ++ strOf "】" ++ e.name
  if e.properties = [] then base
  else
    let props := (e.properties.filter fun kv =>
        !(kv.1 == strOf "id") && !(kv.1 == strOf "name") && kv.2 ≠ []).map
      fun kv => kv.1 ++ strOf ": " ++ kv.2
    if props ≠ [] then base ++ strOf "\n属性: " ++ joinSep (strOf ", ") (props.take 3)
    else base

/-- The `GraphRelation` materialized for one neighbor edge. -/
def mkNeighborRelation (e : GraphNode) (n : NeighborRec) : GraphRelation :=
  { source := e.name, target := n.name, relation_type := n.relation, properties := [] }

/-- Relations and context parts contributed by the neighbor fallback of
`get_entity_context` for one entity. -/
def neighborAdditions (e : GraphNode) (nb : NeighborInfo) :
    List GraphRelation × List Str :=
  match nb.center with
  | none => ([], [])
  | some _ =>
    let info := entityInfoText e
    if nb.all ≠ [] then
      let taken := nb.all.take 5
      let relTexts := taken.map fun n => n.relation ++ [' '] ++ n.name
      (taken.map (mkNeighborRelation e),
       [info, strOf "相关: " ++ joinSep (strOf ", ") relTexts])
    else ([], [info])

/-- Contribution of one entity in `get_entity_context`: the intent-specific
question context first, the neighbor enumeration as fallback. -/
def handleEntity (tool : GraphToolOracle) (qtype : Str) (e : GraphNode) :
    Except Str (List GraphRelation × List Str) :=
  if qtype ≠ strOf "general" then do
    let qc ← tool.get_question_context (e.name ++ strOf "的" ++ qtype)
    if qc ≠ [] ∧ strContains qc (strOf "未找到") = false then
      .ok ([], [strOf "【" ++ e.label ++ strOf "】" ++ e.name ++ strOf "\n" ++ qc])
    else do
      let nb ← tool.get_entity_neighbors e.name
      .ok (neighborAdditions e nb)
  else do
    let nb ← tool.get_entity_neighbors e.name
    .ok (neighborAdditions e nb)

/-- The entity loop of `get_entity_context`, with the processed-id set
and the relation/part accumulators. -/
def entityContextLoop (tool : GraphToolOracle) (qtype : Str) :
    List GraphNode → List Str → List GraphRelation → List Str →
    Except Str (List GraphRelation × List Str)
  | [], _, rels, parts => .ok (rels, parts)
  | e :: rest, processed, rels, parts =>
    if processed.contains e.id then
      entityContextLoop tool qtype rest processed rels parts
    else do
      let (newRels, newParts) ← handleEntity tool qtype e
      entityContextLoop tool qtype rest (e.id :: processed)
        (rels ++ newRels) (parts ++ newParts)

/-- Embedding of `GraphRetriever.get_entity_context` (at most five
entities; per-entity blocks joined by blank lines). -/
def get_entity_context (tool : GraphToolOracle) (entities : List GraphNode)
    (qtype : Str) : Except Str (List GraphRelation × Str) := do
  let (rels, parts) ← entityContextLoop tool qtype (entities.take 5) [] [] []
  .ok (rels, joinSep (strOf "\n\n") parts)

/-- The `key_terms` list of `calculate_relevance_score`. -/
def keyTerms : List Str := strsOf ["妊娠期糖尿病", "糖尿病", "血糖", "胰岛素", "糖耐量"]

/-- Distinct-common-word count between an entity name and the query
(the intersection of the two `[一-鿿]{2,}` word sets). -/
def commonWordCount (name query : Str) : Nat :=
  ((cjkWords2 name).dedup.filter (fun w => (cjkWords2 query).contains w)).length

/-- Per-entity name-match contribution of `calculate_relevance_score`. -/
def entityMatchScore (query query_lower : Str) (e : GraphNode) : ℚ :=
  let enl := lowerStr e.name
  let qStripped := (query_lower.filter (fun c => !(c == '的'))).filter (fun c => !(c == '？'))
  (if strContains query_lower enl || strContains enl qStripped then (0.4 : ℚ) else 0) +
  ((keyTerms.filter fun term =>
      strContains e.name term && strContains query term).length : ℚ) * 0.3 +
  (commonWordCount e.name query : ℚ) * 0.1

/-- The `type_mapping` table of `calculate_relevance_score`
(missing keys, e.g. `原因` and `预防`, fall back to the general set). -/
def typeMapping (qtype : Str) : List Str :=
  if qtype = strOf "症状" then strsOf ["Symptom", "MedicalConcept"]
  else if qtype = strOf "治疗" then strsOf ["Treatment", "Medication"]
  else if qtype = strOf "诊断" then strsOf ["DiagnosticMethod"]
  else if qtype = strOf "风险" then strsOf ["RiskFactor", "Complication"]
  else if qtype = strOf "饮食" then strsOf ["Food", "NutritionalGuideline"]
  else strsOf ["Disease", "Symptom", "Treatment", "DiagnosticMethod"]

/-- Embedding of `GraphRetriever.calculate_relevance_score`. -/
def calculate_relevance_score (query : Str) (entities : List GraphNode)
    (relations : List GraphRelation) (question_type : Str) : ℚ :=
  if entities = [] then 0
  else
    let query_lower := lowerStr query
    let entity_score := (entities.map (entityMatchScore query query_lower)).sum
    let expected := typeMapping question_type
    let type_match_count := (entities.filter fun e => expected.contains e.label).length
    let type_score := (type_match_count : ℚ) * 0.2
    let relation_score := min ((relations.length : ℚ) * 0.03) 0.2
    let context_score :=
      min ((entities.map fun e =>
        if e.properties = [] then (0 : ℚ)
        else if (e.properties.map Prod.fst).contains (strOf "description") then 0.15
        else 0.05).sum) 0.25
    let disease_bonus : ℚ :=
      if entities.any (fun e => strContains e.name (strOf "妊娠期糖尿病")) then 0.2 else 0
    let total_score := entity_score + type_score + relation_score + context_score + disease_bonus
    let quality_multiplier : ℚ :=
      if 3 ≤ entities.length ∧ 5 ≤ relations.length then 1.1
      else if 2 ≤ type_match_count then 1.05
      else 1
    let final_score := total_score * quality_multiplier
    if 0 < final_score then min (max final_score 0.1) 1 else final_score

/-- The keyword list `retrieve` actually searches with: the extracted
entities, or (when extraction yields nothing) the whitespace-split
query words longer than one character. -/
def retrieveKeywords (query : Str) : List Str × Str :=
  let (kw0, qt) := extract_medical_entities query
  (if kw0 = [] then ((pySplit query).map stripStr).filter (fun w => 1 < w.length)
   else kw0, qt)

/-- The sentinel returned by `retrieve` when no entity resolves. -/
def emptyGraphResult (keywords : List Str) : GraphSearchResult :=
  { entities := [], relations := [], context_text := strOf "未找到相关的图谱信息",
    relevance_score := 0, search_keywords := keywords,
    search_strategy := strOf "empty_result", retrieval_time := 0 }

/-- The sentinel returned by `retrieve` when an internal step raises. -/
def errorGraphResult (e : Str) (keywords : List Str) : GraphSearchResult :=
  { entities := [], relations := [],
    context_text := strOf "图谱检索出现错误: " ++ e,
    relevance_score := 0, search_keywords := keywords,
    search_strategy := strOf "error", retrieval_time := 0 }

/-- Embedding of `GraphRetriever.retrieve`.  The keyword extraction is
pure, so by the time any graph call can raise, `keywords` is bound; the
`except` handler therefore always sees it (matching the `locals()`
check in the source). -/
def GraphRetriever.retrieve (tool : GraphToolOracle) (query : Str) (top_k : Nat) :
    List GraphSearchResult :=
  let keywords := (retrieveKeywords query).1
  let question_type := (retrieveKeywords query).2
  match search_entities tool keywords with
  | .error e => [errorGraphResult e keywords]
  | .ok entities =>
    if entities = [] then [emptyGraphResult keywords]
    else
      match get_entity_context tool entities question_type with
      | .error e => [errorGraphResult e keywords]
      | .ok rc =>
        let relevance_score := calculate_relevance_score query entities rc.1 question_type
        let search_strategy :=
          if question_type ≠ strOf "general" then strOf "specialized_" ++ question_type
          else strOf "general_graph"
        [{ entities := entities.take top_k, relations := rc.1,
           context_text := rc.2, relevance_score := relevance_score,
           search_keywords := keywords, search_strategy := search_strategy,
           retrieval_time := 0 }]

/-- Decimal rendering of a natural number. -/
def natToStr (n : Nat) : Str := (toString n).data

/-- Zero-padded three-digit rendering. -/
def pad3 (n : Nat) : Str :=
  if n < 10 then '0' :: '0' :: natToStr n
  else if n < 100 then '0' :: natToStr n
  else natToStr n

/-- The `{:.3f}` formatting of a score in `fuse_contexts` (three decimal
places; none of the proved claims depends on the digits chosen). -/
def formatQ3 (q : ℚ) : Str :=
  let n := (⌊|q| * 1000 + 1 / 2⌋).toNat
  (if q < 0 then ['-'] else []) ++ natToStr (n / 1000) ++ ['.'] ++ pad3 (n % 1000)

/-- Keyword list for knowledge-type queries in `classify_query_type`. -/
def knowledgeKeywords : List Str :=
  strsOf ["什么是", "如何", "怎样", "为什么", "原因", "机制", "定义"]

/-- Keyword list for factual queries in `classify_query_type`. -/
def factualKeywords : List Str :=
  strsOf ["症状", "治疗", "诊断", "检查", "药物", "风险", "并发症"]

/-- Keyword list for contextual queries in `classify_query_type`. -/
def contextualKeywords : List Str :=
  strsOf ["病例", "案例", "经验", "经历", "故事", "情况"]

/-- Embedding of `HybridRetriever.classify_query_type`. -/
def classify_query_type (query : Str) : Str :=
  let ql := lowerStr query
  let knowledge_count := (knowledgeKeywords.filter (fun k => strContains ql k)).length
  let factual_count := (factualKeywords.filter (fun k => strContains ql k)).length
  let contextual_count := (contextualKeywords.filter (fun k => strContains ql k)).length
  if 0 < knowledge_count then strOf "knowledge_based"
  else if 0 < factual_count then strOf "factual"
  else if 0 < contextual_count then strOf "contextual"
  else strOf "general"

/-- The `query_type_weights` table (semantic, graph), with the `general`
entry holding the constructor weights; `dict.get` falls back to it for
unknown types. -/
def queryTypeWeights (sw gw : ℚ) (qt : Str) : ℚ × ℚ :=
  if qt = strOf "knowledge_based" then (0.3, 0.7)
  else if qt = strOf "factual" then (0.2, 0.8)
  else if qt = strOf "contextual" then (0.7, 0.3)
  else (sw, gw)

/-- The per-result entity weight in `calculate_combined_score`:
`min(len(result.entities), 5) / 5.0 + 0.2`. -/
def graphEntityWeight (r : GraphSearchResult) : ℚ :=
  ((min r.entities.length 5 : Nat) : ℚ) / 5 + 0.2

/-- Semantic part of `calculate_combined_score`: mean of the top three
scores, zero without results. -/
def semanticComponent (semantic : List (DocumentChunk × ℚ)) : ℚ :=
  if semantic = [] then 0
  else
    let top := (semantic.take 3).map Prod.snd
    top.sum / (top.length : ℚ)

/-- Graph part of `calculate_combined_score`: entity-weight-weighted
mean of the relevance scores, guarded by a positive total weight. -/
def graphComponent (graph : List GraphSearchResult) : ℚ :=
  if graph = [] then 0
  else
    let total_weight := (graph.map graphEntityWeight).sum
    let weighted_sum := (graph.map fun r => r.relevance_score * graphEntityWeight r).sum
    if 0 < total_weight then weighted_sum / total_weight else 0

/-- The `len(graph_results[0].entities) >= 2` part of the richness test. -/
def firstGraphRich (graph : List GraphSearchResult) : Bool :=
  match graph with
  | [] => false
  | g :: _ => 2 ≤ g.entities.length

/-- Embedding of `HybridRetriever.calculate_combined_score` with the
constructor weights `sw`/`gw` as the `general` table entry. -/
def HybridRetriever.calculate_combined_score (sw gw : ℚ)
    (semantic : List (DocumentChunk × ℚ)) (graph : List GraphSearchResult)
    (query_type : Str) : ℚ :=
  let weights := queryTypeWeights sw gw query_type
  let semantic_score := semanticComponent semantic
  let graph_score := graphComponent graph
  let combined_score := semantic_score * weights.1 + graph_score * weights.2
  let quality_bonus : ℚ :=
    if semantic ≠ [] ∧ graph ≠ [] then 1.2
    else if 3 ≤ semantic.length ∨ firstGraphRich graph then 1.1
    else 1
  min (combined_score * quality_bonus) 1

/-- Modelled from the claim's words: the per-query-type weight table
(factual 0.2/0.8, contextual 0.7/0.3, knowledge_based 0.3/0.7, else the
configurable default pair). -/
def specWeightTable (defaultSem defaultGraph : ℚ) (query_type : Str) : ℚ × ℚ :=
  if query_type = strOf "factual" then (0.2, 0.8)
  else if query_type = strOf "contextual" then (0.7, 0.3)
  else if query_type = strOf "knowledge_based" then (0.3, 0.7)
  else (defaultSem, defaultGraph)

/-- Modelled from the claim's words: the semantic component, the mean of
the top-3 semantic scores, 0 if there are no semantic results. -/
def specSemanticComponent (semantic : List (DocumentChunk × ℚ)) : ℚ :=
  if semantic = [] then 0
  else ((semantic.take 3).map Prod.snd).sum / (((semantic.take 3).map Prod.snd).length : ℚ)

/-- Modelled from the claim's words: each graph result's
entity-count-derived confidence. -/
def specEntityConfidence (r : GraphSearchResult) : ℚ :=
  ((min r.entities.length 5 : Nat) : ℚ) / 5 + 0.2

/-- Modelled from the claim's words: the graph component, the
confidence-weighted mean of the graph relevance scores, 0 if there are
no graph results. -/
def specGraphComponent (graph : List GraphSearchResult) : ℚ :=
  if graph = [] then 0
  else
    (graph.map fun r => r.relevance_score * specEntityConfidence r).sum /
      (graph.map specEntityConfidence).sum

/-- Modelled from the claim's words: the richness multiplier, 1.2 when
both modalities are non-empty, 1.1 when one is unusually rich (at least
three semantic hits, or a first graph result with at least two
entities), otherwise 1. -/
def specRichnessMultiplier (semantic : List (DocumentChunk × ℚ))
    (graph : List GraphSearchResult) : ℚ :=
  if semantic ≠ [] ∧ graph ≠ [] then 1.2
  else if 3 ≤ semantic.length ∨ firstGraphRich graph then 1.1
  else 1

/-- Clamp to the unit interval. -/
def clamp01 (x : ℚ) : ℚ := max 0 (min x 1)

/-- Modelled from the claim's words: the full combined-score formula. -/
def combinedScoreSpec (sw gw : ℚ) (semantic : List (DocumentChunk × ℚ))
    (graph : List GraphSearchResult) (query_type : Str) : ℚ :=
  let w := specWeightTable sw gw query_type
  clamp01 ((specSemanticComponent semantic * w.1 + specGraphComponent graph * w.2) *
    specRichnessMultiplier semantic graph)

/-- The guard `graph_result.context_text and "未找到" not in ...` used by
every fusion strategy before including a graph block. -/
def graphBlockOk (r : GraphSearchResult) : Bool :=
  r.context_text ≠ [] && !(strContains r.context_text (strOf "未找到"))

/-- Context parts of the graph-first strategy (factual queries). -/
def factualParts (semantic : List (DocumentChunk × ℚ))
    (graph : List GraphSearchResult) : List Str :=
  (graph.enum.filterMap fun ig =>
    if graphBlockOk ig.2 then
      some (strOf "【知识图谱-" ++ natToStr (ig.1 + 1) ++ strOf "】\n" ++ ig.2.context_text)
    else none) ++
  (if semantic ≠ [] then
    strOf "\n【相关文档内容】" ::
      ((semantic.take 2).enum.filterMap fun ics =>
        if (0.6 : ℚ) < ics.2.2 then
          some (natToStr (ics.1 + 1) ++ strOf ". " ++ ics.2.1.text.take 300 ++ strOf "...")
        else none)
   else [])

/-- Context parts of the semantic-first strategy (contextual queries). -/
def contextualParts (semantic : List (DocumentChunk × ℚ))
    (graph : List GraphSearchResult) : List Str :=
  strOf "【相关文档内容】" ::
  (semantic.enum.map fun ics =>
    natToStr (ics.1 + 1) ++ strOf ". (相关性: " ++ formatQ3 ics.2.2 ++ strOf ") " ++
      ics.2.1.text) ++
  (if graph ≠ [] then
    graph.filterMap fun r =>
      if graphBlockOk r then some (strOf "\n【相关知识点】\n" ++ r.context_text) else none
   else [])

/-- Context parts of the balanced strategy (default). -/
def balancedParts (semantic : List (DocumentChunk × ℚ))
    (graph : List GraphSearchResult) : List Str :=
  (match graph with
   | [] => []
   | g :: _ =>
     if (0.5 : ℚ) < g.relevance_score ∧ graphBlockOk g = true then
       [strOf "【核心知识】\n" ++ g.context_text]
     else []) ++
  (if semantic ≠ [] then
    strOf "\n【相关文档】" ::
      ((semantic.take 3).enum.filterMap fun ics =>
        if (0.4 : ℚ) < ics.2.2 then
          some (natToStr (ics.1 + 1) ++ strOf ". " ++ ics.2.1.text ++ [' '] ++
            (if ics.2.1.source_file ≠ [] then strOf "来源: " ++ ics.2.1.source_file else []))
        else none)
   else []) ++
  (if 1 < graph.length then
    (graph.drop 1).filterMap fun r =>
      if graphBlockOk r then some (strOf "\n【补充信息】\n" ++ r.context_text) else none
   else [])

/-- Strategy selection of `fuse_contexts` (before the fallback). -/
def fuseBranch (semantic : List (DocumentChunk × ℚ))
    (graph : List GraphSearchResult) (query_type : Str) : List Str × Str :=
  if query_type = strOf "factual" ∧ graph ≠ [] then
    (factualParts semantic graph, strOf "graph_first")
  else if query_type = strOf "contextual" ∧ semantic ≠ [] then
    (contextualParts semantic graph, strOf "semantic_first")
  else (balancedParts semantic graph, strOf "balanced")

/-- The empty-parts fallback of `fuse_contexts`. -/
def fallbackParts (semantic : List (DocumentChunk × ℚ))
    (graph : List GraphSearchResult) : List Str :=
  if semantic ≠ [] then
    [strOf "找到 " ++ natToStr semantic.length ++ strOf " 个相关文档，但相关性较低"]
  else if graph ≠ [] then [strOf "知识图谱中找到相关概念，但信息有限"]
  else [strOf "未找到直接相关的信息"]

/-- Context parts and fusion-method tag after the fallback handling. -/
def fusePartsMethod (semantic : List (DocumentChunk × ℚ))
    (graph : List GraphSearchResult) (query_type : Str) : List Str × Str :=
  let (parts, m) := fuseBranch semantic graph query_type
  if parts = [] then (fallbackParts semantic graph, strOf "fallback") else (parts, m)

/-- The assembled context before the length cap:
`"\n\n".join(context_parts)`. -/
def fuseAssembled (semantic : List (DocumentChunk × ℚ))
    (graph : List GraphSearchResult) (query_type : Str) : Str :=
  joinSep (strOf "\n\n") (fusePartsMethod semantic graph query_type).1

/-- The truncation marker appended by `fuse_contexts` (11 characters). -/
def truncationMarker : Str := strOf "\n...(内容已截断)"

/-- Embedding of `HybridRetriever.fuse_contexts`: assembled context and
fusion-method tag, hard-capped at 2000 characters plus the marker. -/
def fuse_contexts (semantic : List (DocumentChunk × ℚ))
    (graph : List GraphSearchResult) (query_type : Str) : Str × Str :=
  let combined := fuseAssembled semantic graph query_type
  let m := (fusePartsMethod semantic graph query_type).2
  if 2000 < combined.length then
    (combined.take 2000 ++ truncationMarker, m ++ strOf "_truncated")
  else (combined, m)

/-- Embedding of the `HybridSearchResult` dataclass. -/
structure HybridSearchResult where
  semantic_results : List (DocumentChunk × ℚ)
  graph_results : List GraphSearchResult
  combined_context : Str
  final_score : ℚ
  search_strategy : Str
  total_retrieval_time : ℚ
  fusion_method : Str
deriving DecidableEq

/-- The fusion pipeline of `HybridRetriever.retrieve` applied to the two
already-computed retrieval result lists (steps 1 and 3-6 of the
method). -/
def retrieveWith (sw gw : ℚ) (semantic_results : List (DocumentChunk × ℚ))
    (graph_results : List GraphSearchResult) (query : Str) (top_k : Nat) :
    HybridSearchResult :=
  let query_type := classify_query_type query
  let final_score :=
    HybridRetriever.calculate_combined_score sw gw semantic_results graph_results query_type
  let fused := fuse_contexts semantic_results graph_results query_type
  let search_strategy :=
    if semantic_results ≠ [] ∧ graph_results ≠ [] then strOf "hybrid_" ++ query_type
    else if semantic_results ≠ [] then strOf "semantic_only_" ++ query_type
    else if graph_results ≠ [] then strOf "graph_only_" ++ query_type
    else strOf "no_results"
  { semantic_results := semantic_results.take top_k,
    graph_results := graph_results.take top_k,
    combined_context := fused.1, final_score := final_score,
    search_strategy := search_strategy, total_retrieval_time := 0,
    fusion_method := fused.2 }

/-- Embedding of `HybridRetriever.semantic_retrieve` (guards on loaded
chunks and vectors, then `similarity_search` with threshold 0.3). -/
def semantic_retrieve (st : EngineState) (encode : Str → Except Str (List ℚ))
    (query : Str) (top_k : Nat) : List (DocumentChunk × ℚ) :=
  if st.chunks = [] then []
  else
    match st.vectors with
    | none => []
    | some _ => similarity_search st encode query top_k none 0.3

/-- Embedding of `HybridRetriever.graph_retrieve` (the wrapped call; the
graph retriever itself never raises in the model, matching its
contract). -/
def graph_retrieve (tool : GraphToolOracle) (query : Str) (top_k : Nat) :
    List GraphSearchResult :=
  GraphRetriever.retrieve tool query top_k

/-- Embedding of `HybridRetriever.retrieve` with constructor parameters
`sw`/`gw` (weights) and `maxSem`/`maxGraph` (per-modality caps). -/
def HybridRetriever.retrieve (sw gw : ℚ) (maxSem maxGraph : Nat)
    (st : EngineState) (encode : Str → Except Str (List ℚ))
    (tool : GraphToolOracle) (query : Str) (top_k : Nat) : HybridSearchResult :=
  retrieveWith sw gw (semantic_retrieve st encode query maxSem)
    (graph_retrieve tool query maxGraph) query top_k

/-- The first graph-tool exception `GraphRetriever.retrieve` would hit
for a query, if any: the error of the entity search, or of the context
expansion when entities were found.  `none` means the pipeline runs to
completion (including the empty-result path). -/
def graphRetrieveFailure (tool : GraphToolOracle) (query : Str) : Option Str :=
  match search_entities tool (retrieveKeywords query).1 with
  | .error e => some e
  | .ok entities =>
    if entities = [] then none
    else
      match get_entity_context tool entities (retrieveKeywords query).2 with
      | .error e => some e
      | .ok _ => none

/-- Fixture: a graph store in which no lookup resolves anything. -/
def toolEmpty : GraphToolOracle :=
  { find_entity_by_name := fun _ _ => .ok [],
    get_question_context := fun _ => .ok [],
    get_entity_neighbors := fun _ => .ok { center := none, all := [] } }

/-- Fixture: a graph store whose name lookup raises. -/
def toolFail : GraphToolOracle :=
  { find_entity_by_name := fun _ _ => .error (strOf "connection refused"),
    get_question_context := fun _ => .ok [],
    get_entity_neighbors := fun _ => .ok { center := none, all := [] } }

/-- Fixture: a graph result whose context text is 2100 characters long,
driving the fused context over the 2000-character budget. -/
def longGraphResult : GraphSearchResult :=
  { entities := [], relations := [],
    context_text := List.replicate 2100 'x',
    relevance_score := 0.6, search_keywords := [],
    search_strategy := strOf "general_graph", retrieval_time := 0 }

/-- Fixture: a freshly constructed engine with nothing loaded. -/
def engineEmpty : EngineState :=
  { model_name := strOf "all-mpnet-base-v2", chunk_size := 512,
    overlap_size := 50, hasModel := true, chunks := [], vectors := none }

/-- Fixture: a well-formed snapshot whose recorded format version `1.0`
differs from the version the engine itself writes. -/
def snapshotV1 : SnapshotData :=
  { metadata :=
      { model_name := strOf "all-mpnet-base-v2", chunk_size := 512,
        overlap_size := 50, total_chunks := 1, vector_dimension := 2,
        version := strOf "1.0" },
    chunks :=
      [{ chunk_id := strOf "guidelines_0", text := strOf "血糖监测",
         source_file := strOf "doc.txt",
         metadata := [(strOf "data_type", strOf "guidelines")],
         vector := some [1, 0] }] }

theorem mem_insertDesc {α : Type} (key : α → ℚ) (x a : α) (l : List α) :
    a ∈ insertDesc key x l ↔ a = x ∨ a ∈ l := by
  induction l with
  | nil => simp [insertDesc]
  | cons y ys ih =>
    unfold insertDesc
    split
    · simp only [List.mem_cons]
    · simp only [List.mem_cons, ih]
      tauto

theorem sorted_insertDesc {α : Type} (key : α → ℚ) (x : α) (l : List α)
    (h : l.Pairwise (fun a b => key b ≤ key a)) :
    (insertDesc key x l).Pairwise (fun a b => key b ≤ key a) := by
  induction l with
  | nil => simp [insertDesc]
  | cons y ys ih =>
    unfold insertDesc
    split
    · rename_i hle
      refine List.Pairwise.cons ?_ h
      intro z hz
      rcases List.mem_cons.1 hz with rfl | hz
      · exact hle
      · exact le_trans (List.rel_of_pairwise_cons h hz) hle
    · rename_i hgt
      push_neg at hgt
      refine List.Pairwise.cons ?_ (ih (List.Pairwise.of_cons h))
      intro z hz
      rcases (mem_insertDesc key x z ys).1 hz with rfl | hz
      · exact hgt.le
      · exact List.rel_of_pairwise_cons h hz

theorem sorted_sortDesc {α : Type} (key : α → ℚ) (l : List α) :
    (sortDesc key l).Pairwise (fun a b => key b ≤ key a) := by
  induction l with
  | nil => simp [sortDesc]
  | cons y ys ih => exact sorted_insertDesc key y _ ih

theorem mem_of_mem_sortDesc {α : Type} (key : α → ℚ) (l : List α) (a : α)
    (h : a ∈ sortDesc key l) : a ∈ l := by
  induction l with
  | nil => simpa [sortDesc] using h
  | cons y ys ih =>
    rcases (mem_insertDesc key y a (sortDesc key ys)).1 h with rfl | h
    · exact List.mem_cons_self _ _
    · exact List.mem_cons_of_mem _ (ih h)

/-- C10: `GraphRetriever.retrieve` returns exactly one `GraphSearchResult`
for every query and `top_k` — on success, on zero resolved entities and
on internal failure alike — so a caller may index the first element. -/
theorem graph_retrieve_singleton (tool : GraphToolOracle) (query : Str) (top_k : Nat) :
    (GraphRetriever.retrieve tool query top_k).length = 1 := by
  unfold GraphRetriever.retrieve
  cases hs : search_entities tool (retrieveKeywords query).1 with
  | error e => simp [hs]
  | ok entities =>
    by_cases he : entities = []
    · simp [hs, he]
    · cases hc : get_entity_context tool entities (retrieveKeywords query).2 with
      | error e => simp [hs, he, hc]
      | ok rc => simp [hs, he, hc]

/-- C4: `GraphRetriever.retrieve` is total by construction, and whenever
an internal graph lookup or extraction step raises, the returned value
is the sentinel with relevance score 0, strategy `error` and the cause
text embedded in `context_text`. -/
theorem graph_retrieve_error_sentinel (tool : GraphToolOracle) (query : Str)
    (top_k : Nat) (e : Str) (hfail : graphRetrieveFailure tool query = some e) :
    GraphRetriever.retrieve tool query top_k =
      [{ entities := [], relations := [],
         context_text := strOf "图谱检索出现错误: " ++ e,
         relevance_score := 0,
         search_keywords := (retrieveKeywords query).1,
         search_strategy := strOf "error", retrieval_time := 0 }] := by
  unfold GraphRetriever.retrieve
  unfold graphRetrieveFailure at hfail
  cases hs : search_entities tool (retrieveKeywords query).1 with
  | error e2 =>
    rw [hs] at hfail
    simp only [Option.some.injEq] at hfail
    subst hfail
    simp [hs, errorGraphResult]
  | ok entities =>
    rw [hs] at hfail
    by_cases he : entities = []
    · simp [he] at hfail
    · simp only [he, if_false] at hfail
      cases hc : get_entity_context tool entities (retrieveKeywords query).2 with
      | error e2 =>
        rw [hc] at hfail
        simp only [Option.some.injEq] at hfail
        subst hfail
        simp [hs, he, hc, errorGraphResult]
      | ok rc =>
        rw [hc] at hfail
        simp at hfail

theorem graph_retrieve_error_sentinel_witness :
    graphRetrieveFailure toolFail (strOf "血糖") = some (strOf "connection refused") ∧
    GraphRetriever.retrieve toolFail (strOf "血糖") 5 =
      [{ entities := [], relations := [],
         context_text := strOf "图谱检索出现错误: " ++ strOf "connection refused",
         relevance_score := 0,
         search_keywords := (retrieveKeywords (strOf "血糖")).1,
         search_strategy := strOf "error", retrieval_time := 0 }] :=
  ⟨by decide,
   graph_retrieve_error_sentinel toolFail (strOf "血糖") 5
     (strOf "connection refused") (by decide)⟩

theorem entityMatchScore_nonneg (query query_lower : Str) (e : GraphNode) :
    0 ≤ entityMatchScore query query_lower e := by
  unfold entityMatchScore
  have h1 : (0 : ℚ) ≤
      (if strContains query_lower (lowerStr e.name) ||
          strContains (lowerStr e.name)
            ((query_lower.filter (fun c => !(c == '的'))).filter (fun c => !(c == '？')))
        then (0.4 : ℚ) else 0) := by
    split <;> norm_num
  refine add_nonneg (add_nonneg h1 ?_) ?_ <;> positivity

theorem calculate_relevance_score_bounds (query : Str) (entities : List GraphNode)
    (relations : List GraphRelation) (qt : Str) :
    0 ≤ calculate_relevance_score query entities relations qt ∧
    calculate_relevance_score query entities relations qt ≤ 1 := by
  unfold calculate_relevance_score
  by_cases he : entities = []
  · simp [he]
  · simp only [he, if_false]
    have hES : 0 ≤ (entities.map (entityMatchScore query (lowerStr query))).sum := by
      refine List.sum_nonneg ?_
      intro x hx
      obtain ⟨en, _, rfl⟩ := List.mem_map.1 hx
      exact entityMatchScore_nonneg _ _ _
    have hTS : (0 : ℚ) ≤
        ((entities.filter fun en => (typeMapping qt).contains en.label).length : ℚ) * 0.2 := by
      positivity
    have hRS : (0 : ℚ) ≤ min ((relations.length : ℚ) * 0.03) 0.2 :=
      le_min (by positivity) (by norm_num)
    have hCS : (0 : ℚ) ≤ min ((entities.map fun en =>
        if en.properties = [] then (0 : ℚ)
        else if (en.properties.map Prod.fst).contains (strOf "description") then 0.15
        else 0.05).sum) 0.25 := by
      refine le_min (List.sum_nonneg ?_) (by norm_num)
      intro x hx
      obtain ⟨en, _, rfl⟩ := List.mem_map.1 hx
      split <;> norm_num
      split <;> norm_num
    have hDB : (0 : ℚ) ≤
        (if entities.any (fun en => strContains en.name (strOf "妊娠期糖尿病")) then (0.2 : ℚ)
         else 0) := by
      split <;> norm_num
    have hT : (0 : ℚ) ≤
        (entities.map (entityMatchScore query (lowerStr query))).sum +
        ((entities.filter fun en => (typeMapping qt).contains en.label).length : ℚ) * 0.2 +
        min ((relations.length : ℚ) * 0.03) 0.2 +
        min ((entities.map fun en =>
          if en.properties = [] then (0 : ℚ)
          else if (en.properties.map Prod.fst).contains (strOf "description") then 0.15
          else 0.05).sum) 0.25 +
        (if entities.any (fun en => strContains en.name (strOf "妊娠期糖尿病")) then (0.2 : ℚ)
         else 0) := by
      have := add_nonneg (add_nonneg (add_nonneg (add_nonneg hES hTS) hRS) hCS) hDB
      linarith
    have hM : (0 : ℚ) <
        (if 3 ≤ entities.length ∧ 5 ≤ relations.length then (1.1 : ℚ)
         else if 2 ≤ (entities.filter fun en => (typeMapping qt).contains en.label).length
         then (1.05 : ℚ) else 1) := by
      split
      · norm_num
      · split <;> norm_num
    set T := (entities.map (entityMatchScore query (lowerStr query))).sum +
        ((entities.filter fun en => (typeMapping qt).contains en.label).length : ℚ) * 0.2 +
        min ((relations.length : ℚ) * 0.03) 0.2 +
        min ((entities.map fun en =>
          if en.properties = [] then (0 : ℚ)
          else if (en.properties.map Prod.fst).contains (strOf "description") then 0.15
          else 0.05).sum) 0.25 +
        (if entities.any (fun en => strContains en.name (strOf "妊娠期糖尿病")) then (0.2 : ℚ)
         else 0) with hTdef
    set M := (if 3 ≤ entities.length ∧ 5 ≤ relations.length then (1.1 : ℚ)
         else if 2 ≤ (entities.filter fun en => (typeMapping qt).contains en.label).length
         then (1.05 : ℚ) else 1) with hMdef
    have hTM : 0 ≤ T * M := mul_nonneg hT hM.le
    by_cases hpos : 0 < T * M
    · simp only [hpos, if_true]
      constructor
      · exact le_min (le_trans (by norm_num) (le_max_right (T * M) 0.1)) (by norm_num)
      · exact min_le_right _ _
    · simp only [hpos, if_false]
      exact ⟨hTM, le_trans (not_lt.1 hpos) (by norm_num)⟩

/-- C2: every `GraphSearchResult` produced by `GraphRetriever.retrieve`
carries a relevance score in the unit interval, and when the entity
search resolves zero entities the returned value is the sentinel with
score exactly 0 and strategy `empty_result`. -/
theorem graph_relevance_score_bounds (tool : GraphToolOracle) (query : Str)
    (top_k : Nat) :
    (∀ r ∈ GraphRetriever.retrieve tool query top_k,
      0 ≤ r.relevance_score ∧ r.relevance_score ≤ 1) ∧
    ((emptyGraphResult (retrieveKeywords query).1).relevance_score = 0 ∧
     (emptyGraphResult (retrieveKeywords query).1).search_strategy = strOf "empty_result") ∧
    (search_entities tool (retrieveKeywords query).1 = .ok [] →
      GraphRetriever.retrieve tool query top_k =
        [emptyGraphResult (retrieveKeywords query).1]) := by
  refine ⟨?_, ⟨rfl, rfl⟩, ?_⟩
  · intro r hr
    unfold GraphRetriever.retrieve at hr
    simp only [] at hr
    cases hs : search_entities tool (retrieveKeywords query).1 with
    | error e =>
      rw [hs] at hr
      simp only [List.mem_singleton] at hr
      subst hr
      exact ⟨le_refl 0, by norm_num [errorGraphResult]⟩
    | ok entities =>
      rw [hs] at hr
      by_cases he : entities = []
      · simp only [he, if_true, List.mem_singleton] at hr
        subst hr
        exact ⟨le_refl 0, by norm_num [emptyGraphResult]⟩
      · simp only [he, if_false] at hr
        cases hc : get_entity_context tool entities (retrieveKeywords query).2 with
        | error e =>
          rw [hc] at hr
          simp only [List.mem_singleton] at hr
          subst hr
          exact ⟨le_refl 0, by norm_num [errorGraphResult]⟩
        | ok rc =>
          rw [hc] at hr
          simp only [List.mem_singleton] at hr
          subst hr
          exact calculate_relevance_score_bounds query entities rc.1
            (retrieveKeywords query).2
  · intro hok
    unfold GraphRetriever.retrieve
    simp only []
    rw [hok]
    simp

theorem graph_relevance_score_bounds_witness :
    (0 ≤ (emptyGraphResult (retrieveKeywords (strOf "血糖")).1).relevance_score ∧
     (emptyGraphResult (retrieveKeywords (strOf "血糖")).1).relevance_score ≤ 1) ∧
    GraphRetriever.retrieve toolEmpty (strOf "血糖") 5 =
      [emptyGraphResult (retrieveKeywords (strOf "血糖")).1] := by
  have h := graph_relevance_score_bounds toolEmpty (strOf "血糖") 5
  have h2 := h.2.2 (by rfl)
  refine ⟨h.1 _ ?_, h2⟩
  rw [h2]
  exact List.mem_singleton_self _

theorem weights_table_eq (sw gw : ℚ) (qt : Str) :
    queryTypeWeights sw gw qt = specWeightTable sw gw qt := by
  unfold queryTypeWeights specWeightTable
  by_cases h1 : qt = strOf "knowledge_based"
  · subst h1
    rw [if_pos rfl, if_neg (by decide), if_neg (by decide), if_pos rfl]
  · by_cases h2 : qt = strOf "factual"
    · subst h2
      rw [if_neg (by decide), if_pos rfl, if_pos rfl]
    · by_cases h3 : qt = strOf "contextual"
      · subst h3
        rw [if_neg (by decide), if_neg (by decide), if_pos rfl,
          if_neg (by decide), if_pos rfl]
      · simp [h1, h2, h3]

theorem queryTypeWeights_nonneg (sw gw : ℚ) (hsw : 0 ≤ sw) (hgw : 0 ≤ gw) (qt : Str) :
    0 ≤ (queryTypeWeights sw gw qt).1 ∧ 0 ≤ (queryTypeWeights sw gw qt).2 := by
  unfold queryTypeWeights
  split_ifs
  · exact ⟨by norm_num, by norm_num⟩
  · exact ⟨by norm_num, by norm_num⟩
  · exact ⟨by norm_num, by norm_num⟩
  · exact ⟨hsw, hgw⟩

theorem semanticComponent_nonneg (semantic : List (DocumentChunk × ℚ))
    (h : ∀ p ∈ semantic, 0 ≤ p.2) : 0 ≤ semanticComponent semantic := by
  unfold semanticComponent
  split
  · exact le_refl 0
  · apply div_nonneg
    · refine List.sum_nonneg ?_
      intro x hx
      obtain ⟨p, hp, rfl⟩ := List.mem_map.1 hx
      exact h p (List.take_subset _ _ hp)
    · positivity

theorem graphEntityWeight_pos (r : GraphSearchResult) : 0 < graphEntityWeight r := by
  unfold graphEntityWeight
  positivity

theorem graphTotalWeight_pos (graph : List GraphSearchResult) (hne : graph ≠ []) :
    0 < (graph.map graphEntityWeight).sum := by
  apply List.sum_pos
  · intro x hx
    obtain ⟨r, _, rfl⟩ := List.mem_map.1 hx
    exact graphEntityWeight_pos r
  · simpa using hne

theorem graphComponent_nonneg (graph : List GraphSearchResult)
    (h : ∀ r ∈ graph, 0 ≤ r.relevance_score) : 0 ≤ graphComponent graph := by
  unfold graphComponent
  split
  · exact le_refl 0
  · simp only []
    split
    · apply div_nonneg
      · refine List.sum_nonneg ?_
        intro x hx
        obtain ⟨r, hr, rfl⟩ := List.mem_map.1 hx
        exact mul_nonneg (h r hr) (graphEntityWeight_pos r).le
      · refine List.sum_nonneg ?_
        intro x hx
        obtain ⟨r, _, rfl⟩ := List.mem_map.1 hx
        exact (graphEntityWeight_pos r).le
    · exact le_refl 0

/-- C5: the combined score computed by `calculate_combined_score` equals
the claim's formula — weighted average of the top-3-mean semantic
component and the confidence-weighted graph component with the
per-query-type weight pair, a richness multiplier, clamped to the unit
interval — whenever the inputs carry the non-negative scores the
retrieval pipeline produces. -/
theorem combined_score_refines_spec (sw gw : ℚ)
    (semantic : List (DocumentChunk × ℚ)) (graph : List GraphSearchResult)
    (qt : Str) (hsw : 0 ≤ sw) (hgw : 0 ≤ gw)
    (hsem : ∀ p ∈ semantic, 0 ≤ p.2)
    (hgr : ∀ r ∈ graph, 0 ≤ r.relevance_score) :
    HybridRetriever.calculate_combined_score sw gw semantic graph qt =
      combinedScoreSpec sw gw semantic graph qt ∧
    0 ≤ HybridRetriever.calculate_combined_score sw gw semantic graph qt ∧
    HybridRetriever.calculate_combined_score sw gw semantic graph qt ≤ 1 := by
  have hw := weights_table_eq sw gw qt
  have hw1 : 0 ≤ (queryTypeWeights sw gw qt).1 := (queryTypeWeights_nonneg sw gw hsw hgw qt).1
  have hw2 : 0 ≤ (queryTypeWeights sw gw qt).2 := (queryTypeWeights_nonneg sw gw hsw hgw qt).2
  have hs0 : 0 ≤ semanticComponent semantic := semanticComponent_nonneg semantic hsem
  have hg0 : 0 ≤ graphComponent graph := graphComponent_nonneg graph hgr
  have hgceq : graphComponent graph = specGraphComponent graph := by
    by_cases hne : graph = []
    · subst hne; rfl
    · unfold graphComponent specGraphComponent
      rw [if_neg hne, if_neg hne]
      simp only []
      rw [if_pos (graphTotalWeight_pos graph hne)]
      unfold graphEntityWeight specEntityConfidence
      rfl
  have hcode : HybridRetriever.calculate_combined_score sw gw semantic graph qt =
      min ((semanticComponent semantic * (queryTypeWeights sw gw qt).1 +
            graphComponent graph * (queryTypeWeights sw gw qt).2) *
           specRichnessMultiplier semantic graph) 1 := rfl
  have hspec : combinedScoreSpec sw gw semantic graph qt =
      max 0 (min ((semanticComponent semantic * (specWeightTable sw gw qt).1 +
            specGraphComponent graph * (specWeightTable sw gw qt).2) *
           specRichnessMultiplier semantic graph) 1) := rfl
  have hB : (0 : ℚ) < specRichnessMultiplier semantic graph := by
    unfold specRichnessMultiplier
    split_ifs <;> norm_num
  have hC : 0 ≤ semanticComponent semantic * (queryTypeWeights sw gw qt).1 +
      graphComponent graph * (queryTypeWeights sw gw qt).2 :=
    add_nonneg (mul_nonneg hs0 hw1) (mul_nonneg hg0 hw2)
  have hX : 0 ≤ (semanticComponent semantic * (queryTypeWeights sw gw qt).1 +
      graphComponent graph * (queryTypeWeights sw gw qt).2) *
      specRichnessMultiplier semantic graph := mul_nonneg hC hB.le
  have hmin : 0 ≤ min ((semanticComponent semantic * (queryTypeWeights sw gw qt).1 +
      graphComponent graph * (queryTypeWeights sw gw qt).2) *
      specRichnessMultiplier semantic graph) 1 := le_min hX zero_le_one
  refine ⟨?_, ?_, ?_⟩
  · rw [hcode, hspec, ← hw, ← hgceq]
    exact (max_eq_right hmin).symm
  · rw [hcode]
    exact hmin
  · rw [hcode]
    exact min_le_right _ _

theorem combined_score_refines_spec_witness :
    HybridRetriever.calculate_combined_score 0.6 0.4 [] [] (strOf "general") =
      combinedScoreSpec 0.6 0.4 [] [] (strOf "general") ∧
    0 ≤ HybridRetriever.calculate_combined_score 0.6 0.4 [] [] (strOf "general") ∧
    HybridRetriever.calculate_combined_score 0.6 0.4 [] [] (strOf "general") ≤ 1 :=
  combined_score_refines_spec 0.6 0.4 [] [] (strOf "general")
    (by norm_num) (by norm_num) (by simp) (by simp)

/-- C6: `similarity_search` returns at most `top_k` results, sorted in
non-increasing score order, each scoring at least `min_score`; against a
collection with no chunks or no vector matrix it returns the empty list
(and, being total, never raises). -/
theorem similarity_search_spec (st : EngineState) (encode : Str → Except Str (List ℚ))
    (query : Str) (top_k : Nat) (filter_type : Option Str) (min_score : ℚ) :
    (similarity_search st encode query top_k filter_type min_score).length ≤ top_k ∧
    (similarity_search st encode query top_k filter_type min_score).Pairwise
      (fun a b => b.2 ≤ a.2) ∧
    (∀ r ∈ similarity_search st encode query top_k filter_type min_score,
      min_score ≤ r.2) ∧
    (st.chunks = [] ∨ st.vectors = none →
      similarity_search st encode query top_k filter_type min_score = []) := by
  by_cases hc : st.chunks = []
  · simp [similarity_search, hc]
  · cases hv : st.vectors with
    | none => simp [similarity_search, hc, hv]
    | some vecs =>
      by_cases hm : st.hasModel
      · cases he : encode query with
        | error e => simp [similarity_search, hc, hv, hm, he]
        | ok qv =>
          have hres : similarity_search st encode query top_k filter_type min_score =
              (sortDesc Prod.snd
                ((st.chunks.zip (vecs.map (fun row => dotQ row qv))).filter
                  (fun cs => keepByFilter filter_type cs.1 && !(cs.2 < min_score)))).take
                top_k := by
            unfold similarity_search
            rw [if_neg hc, hv, he]
            simp [hm]
          rw [hres]
          refine ⟨?_, ?_, ?_, ?_⟩
          · simpa [List.length_take] using min_le_left top_k _
          · exact List.Pairwise.sublist (List.take_sublist _ _) (sorted_sortDesc _ _)
          · intro r hr
            have h1 : r ∈ sortDesc Prod.snd _ := List.take_subset _ _ hr
            have h2 := mem_of_mem_sortDesc _ _ _ h1
            have h3 := (List.mem_filter.1 h2).2
            simp only [Bool.and_eq_true] at h3
            simpa [not_lt] using h3.2
          · intro h
            rcases h with h | h
            · exact absurd h hc
            · simp at h
      · simp [similarity_search, hc, hv, hm]

theorem similarity_search_spec_witness :
    similarity_search engineEmpty (fun _ => .error (strOf "offline")) (strOf "血糖") 5
      none 0.3 = [] ∧
    (similarity_search engineEmpty (fun _ => .error (strOf "offline")) (strOf "血糖") 5
      none 0.3).length ≤ 5 := by
  have h := similarity_search_spec engineEmpty (fun _ => .error (strOf "offline"))
    (strOf "血糖") 5 none 0.3
  exact ⟨h.2.2.2 (Or.inl rfl), h.1⟩

/-- C7: with both retrieval result lists empty, `fuse_contexts`
substitutes the no-information sentence and tags the fusion method
`fallback` for every query type; under the same condition the
coordinator pipeline still returns a well-formed `HybridSearchResult`
with final score 0 (it is total, so never null and never an
exception). -/
theorem fusion_fallback_on_empty (sw gw : ℚ) (query : Str) (top_k : Nat) (qt : Str) :
    fuse_contexts [] [] qt = (strOf "未找到直接相关的信息", strOf "fallback") ∧
    (retrieveWith sw gw [] [] query top_k).final_score = 0 ∧
    (retrieveWith sw gw [] [] query top_k).combined_context =
      strOf "未找到直接相关的信息" ∧
    (retrieveWith sw gw [] [] query top_k).fusion_method = strOf "fallback" ∧
    (retrieveWith sw gw [] [] query top_k).search_strategy = strOf "no_results" := by
  have hfb : ∀ q' : Str, fuse_contexts [] [] q' =
      (strOf "未找到直接相关的信息", strOf "fallback") := by
    intro q'
    have hpm : fusePartsMethod ([] : List (DocumentChunk × ℚ))
        ([] : List GraphSearchResult) q' =
        ([strOf "未找到直接相关的信息"], strOf "fallback") := by
      simp [fusePartsMethod, fuseBranch, balancedParts, fallbackParts]
    unfold fuse_contexts fuseAssembled
    rw [hpm]
    simp only [joinSep]
    rw [if_neg (by decide)]
  have hcs : ∀ q' : Str, HybridRetriever.calculate_combined_score sw gw [] [] q' = 0 := by
    intro q'
    simp [HybridRetriever.calculate_combined_score, semanticComponent, graphComponent,
      firstGraphRich]
  refine ⟨hfb qt, ?_, ?_, ?_, ?_⟩ <;>
    simp [retrieveWith, hfb, hcs]


theorem not_infix_replicate_long : ¬ (strOf "未找到" <:+: List.replicate 2100 'x') := by
  intro h
  have hm : '未' ∈ List.replicate 2100 'x' := h.subset (by decide)
  rw [List.mem_replicate] at hm
  exact absurd hm.2 (by decide)

theorem strContains_replicate_long_false :
    strContains (List.replicate 2100 'x') (strOf "未找到") = false :=
  decide_eq_false not_infix_replicate_long

theorem replicate_long_ne_nil : (List.replicate 2100 'x' : Str) ≠ [] := by
  intro h
  have hlen := congrArg List.length h
  rw [List.length_replicate, List.length_nil] at hlen
  exact absurd hlen (by decide)

theorem graphBlockOk_longGraphResult : graphBlockOk longGraphResult = true := by
  show (decide ((List.replicate 2100 'x' : Str) ≠ []) &&
    !(strContains (List.replicate 2100 'x') (strOf "未找到"))) = true
  rw [strContains_replicate_long_false, decide_eq_true replicate_long_ne_nil]
  rfl

theorem fusePartsMethod_longGraph :
    fusePartsMethod [] [longGraphResult] (strOf "general") =
      ([strOf "【核心知识】\n" ++ List.replicate 2100 'x'], strOf "balanced") := by
  have hb : balancedParts [] [longGraphResult] =
      [strOf "【核心知识】\n" ++ List.replicate 2100 'x'] := by
    simp only [balancedParts]
    rw [if_pos ⟨(by norm_num : (0.5 : ℚ) < (0.6 : ℚ)), graphBlockOk_longGraphResult⟩,
      if_neg (fun hcontra => hcontra rfl), if_neg (by simp)]
    simp only [List.append_nil]
    rfl
  unfold fusePartsMethod fuseBranch
  rw [if_neg (fun hcontra => absurd hcontra.1 (by decide)),
    if_neg (fun hcontra => hcontra.2 rfl), hb]
  simp only []
  rw [if_neg (List.cons_ne_nil _ _)]

theorem fuseAssembled_longGraph_length :
    (fuseAssembled [] [longGraphResult] (strOf "general")).length = 2107 := by
  unfold fuseAssembled
  rw [fusePartsMethod_longGraph]
  show (strOf "【核心知识】\n" ++ List.replicate 2100 'x').length = 2107
  rw [List.length_append, List.length_replicate]
  decide

/-- C1 counterexample: with a 2100-character graph context the fused
context comes back 2011 characters long — the 2000-character budget is
exceeded by the truncation marker itself — so the claim that the
returned context never exceeds 2000 characters is false at this input
(the `_truncated` suffix half of the claim does hold here). -/
theorem fuse_contexts_budget_counterexample :
    2000 < ((fuse_contexts [] [longGraphResult] (strOf "general")).1).length ∧
    ((fuse_contexts [] [longGraphResult] (strOf "general")).1).length = 2011 ∧
    (fuse_contexts [] [longGraphResult] (strOf "general")).2 =
      strOf "balanced_truncated" := by
  have hgt : 2000 < (fuseAssembled [] [longGraphResult] (strOf "general")).length := by
    rw [fuseAssembled_longGraph_length]
    norm_num
  have h1 : (fuse_contexts [] [longGraphResult] (strOf "general")).1 =
      (fuseAssembled [] [longGraphResult] (strOf "general")).take 2000 ++
        truncationMarker := by
    unfold fuse_contexts
    simp only []
    rw [if_pos hgt]
  have h2 : (fuse_contexts [] [longGraphResult] (strOf "general")).2 =
      (fusePartsMethod [] [longGraphResult] (strOf "general")).2 ++
        strOf "_truncated" := by
    unfold fuse_contexts
    simp only []
    rw [if_pos hgt]
  have hlen : ((fuse_contexts [] [longGraphResult] (strOf "general")).1).length = 2011 := by
    rw [h1, List.length_append, List.length_take, fuseAssembled_longGraph_length]
    decide
  refine ⟨by rw [hlen]; norm_num, hlen, ?_⟩
  rw [h2, fusePartsMethod_longGraph]
  decide

/-- C1 amended: the fused context never exceeds 2011 characters — the
2000-character budget plus the 11-character truncation marker — and
whenever the assembled text exceeds the 2000-character budget the
returned context is exactly the 2000-character cut plus the marker and
the fusion-method tag carries the `_truncated` suffix. -/
theorem fuse_contexts_budget_amended (semantic : List (DocumentChunk × ℚ))
    (graph : List GraphSearchResult) (qt : Str) :
    ((fuse_contexts semantic graph qt).1).length ≤ 2011 ∧
    (2000 < (fuseAssembled semantic graph qt).length →
      ((fuse_contexts semantic graph qt).1).length = 2011 ∧
      (fuse_contexts semantic graph qt).2 =
        (fusePartsMethod semantic graph qt).2 ++ strOf "_truncated") := by
  unfold fuse_contexts
  simp only []
  by_cases h : 2000 < (fuseAssembled semantic graph qt).length
  · rw [if_pos h]
    have hlen : ((fuseAssembled semantic graph qt).take 2000 ++ truncationMarker).length
        = 2011 := by
      rw [List.length_append, List.length_take]
      have hm : min 2000 (fuseAssembled semantic graph qt).length = 2000 :=
        min_eq_left (le_of_lt h)
      rw [hm]
      decide
    exact ⟨le_of_eq hlen, fun _ => ⟨hlen, rfl⟩⟩
  · rw [if_neg h]
    exact ⟨le_trans (not_lt.1 h) (by norm_num), fun hh => absurd hh h⟩

theorem fuse_contexts_budget_amended_witness :
    2000 < (fuseAssembled [] [longGraphResult] (strOf "general")).length ∧
    ((fuse_contexts [] [longGraphResult] (strOf "general")).1).length = 2011 ∧
    (fuse_contexts [] [longGraphResult] (strOf "general")).2 =
      (fusePartsMethod [] [longGraphResult] (strOf "general")).2 ++
        strOf "_truncated" := by
  have hgt : 2000 < (fuseAssembled [] [longGraphResult] (strOf "general")).length := by
    rw [fuseAssembled_longGraph_length]
    norm_num
  exact ⟨hgt, (fuse_contexts_budget_amended [] [longGraphResult] (strOf "general")).2 hgt⟩

/-- C8 counterexample: a well-formed snapshot whose recorded format
version `1.0` differs from the `2.0` the engine writes is loaded
successfully — `load_vectors` only logs the header and never compares
versions — refuting the claim that an incompatible version is
rejected. -/
theorem load_vectors_version_counterexample :
    snapshotV1.metadata.version ≠ snapshotVersion ∧
    (load_vectors engineEmpty (some (.ok snapshotV1))).2 = true ∧
    ((load_vectors engineEmpty (some (.ok snapshotV1))).1).chunks.length = 1 := by
  refine ⟨by decide, rfl, rfl⟩

/-- C8 amended: `load_vectors` reads the self-describing header but only
logs it; it loads any readable well-formed snapshot regardless of the
recorded format version, and reports a missing or unreadable snapshot
as an explicit failure (`false`) leaving the state unchanged, never a
silent degradation. -/
theorem load_vectors_amended (st : EngineState)
    (file : Option (Except Str SnapshotData)) :
    (file = none → load_vectors st file = (st, false)) ∧
    (∀ e, file = some (.error e) → load_vectors st file = (st, false)) ∧
    (∀ d, file = some (.ok d) → (load_vectors st file).2 = true) := by
  refine ⟨?_, ?_, ?_⟩
  · intro h
    subst h
    rfl
  · intro e h
    subst h
    rfl
  · intro d h
    subst h
    rfl

theorem load_vectors_amended_witness :
    load_vectors engineEmpty none = (engineEmpty, false) ∧
    (load_vectors engineEmpty (some (.ok snapshotV1))).2 = true :=
  ⟨(load_vectors_amended engineEmpty none).1 rfl,
   (load_vectors_amended engineEmpty (some (.ok snapshotV1))).2.2 snapshotV1 rfl⟩

/-- C3 (code-bug evaluation): the input is exactly a span matched by the
`gestational diabetes mellitus` domain-term pattern, yet
`_smart_text_chunking` — which never consults `medical_entities` —
force-splits it into three chunks none of which contains the span,
contradicting the documented protection of matched spans as atomic
units. -/
theorem chunking_splits_domain_term :
    medicalEntityPatterns.any (fun p =>
      matchesDomainPattern p (strOf "gestational diabetes mellitus aa。")) = true ∧
    smartTextChunking 10 50 (strOf "gestational diabetes mellitus aa。") =
      [strOf "gestational", strOf "diabetes", strOf "mellitus aa"] ∧
    ∀ c ∈ smartTextChunking 10 50 (strOf "gestational diabetes mellitus aa。"),
      strContains c (strOf "gestational diabetes mellitus aa。") = false := by
  decide


/-- C9 counterexample: two inputs refute the claim.  `a.bb` is
non-empty, fits the configured chunk size 4 and matches no domain-term
pattern, yet chunking yields two chunks and neither contains the input
— the sentence splitter rewrites `.` to `。` and the per-sentence
terminator pushes the packed text over the size bound.  And `a  b`
(double space, no punctuation, well under the default size) yields one
chunk `a b。` that does not contain the input — the whitespace
normalization collapses the run. -/
theorem single_chunk_counterexample :
    strOf "a.bb" ≠ [] ∧
    (strOf "a.bb").length ≤ 4 ∧
    hasDomainTermMatch (strOf "a.bb") = false ∧
    smartTextChunking 4 50 (strOf "a.bb") = [strOf "a。", strOf "bb。"] ∧
    ¬ ((smartTextChunking 4 50 (strOf "a.bb")).length = 1 ∧
       ∀ c ∈ smartTextChunking 4 50 (strOf "a.bb"),
         strContains c (strOf "a.bb") = true) ∧
    strOf "a  b" ≠ [] ∧
    (strOf "a  b").length ≤ 512 ∧
    hasDomainTermMatch (strOf "a  b") = false ∧
    smartTextChunking 512 50 (strOf "a  b") = [strOf "a b。"] ∧
    ¬ (∀ c ∈ smartTextChunking 512 50 (strOf "a  b"),
         strContains c (strOf "a  b") = true) := by
  decide

theorem splitSentencesAux_no_splitter (l : Str)
    (h : ∀ c ∈ l, isSplitterChar c = false) :
    ∀ acc : Str, splitSentencesAux false acc l = [acc.reverse ++ l] := by
  induction l with
  | nil =>
    intro acc
    simp [splitSentencesAux]
  | cons c rest ih =>
    intro acc
    have hc := h c (List.mem_cons_self _ _)
    unfold splitSentencesAux
    rw [if_neg (by simp), if_neg (by simp [hc]),
      ih (fun d hd => h d (List.mem_cons_of_mem _ hd)) (c :: acc)]
    simp

theorem stripStr_length_le_dropWhile (t : Str) :
    (stripStr t).length ≤ (t.dropWhile isPySpace).length := by
  unfold stripStr
  rw [List.length_reverse]
  calc ((t.dropWhile isPySpace).reverse.dropWhile isPySpace).length
      ≤ (t.dropWhile isPySpace).reverse.length := (List.dropWhile_sublist _).length_le
    _ = (t.dropWhile isPySpace).length := List.length_reverse _

theorem head_not_space (c : Char) (rest : Str)
    (hstrip : stripStr (c :: rest) = c :: rest) : isPySpace c = false := by
  by_contra hcon
  rw [Bool.not_eq_false] at hcon
  have hdrop : (c :: rest).dropWhile isPySpace = rest.dropWhile isPySpace := by
    simp [List.dropWhile, hcon]
  have h1 := stripStr_length_le_dropWhile (c :: rest)
  rw [hstrip, hdrop] at h1
  have h2 : (rest.dropWhile isPySpace).length ≤ rest.length :=
    (List.dropWhile_sublist _).length_le
  simp only [List.length_cons] at h1
  omega

theorem strip_append_stop (t : Str) (hne : t ≠ []) (hstrip : stripStr t = t) :
    stripStr (t ++ ['。']) = t ++ ['。'] := by
  obtain ⟨c, rest, rfl⟩ := List.exists_cons_of_ne_nil hne
  have hc : isPySpace c = false := head_not_space c rest hstrip
  have hstop : isPySpace '。' = false := rfl
  unfold stripStr
  have h1 : ((c :: rest) ++ ['。']).dropWhile isPySpace = (c :: rest) ++ ['。'] := by
    simp [List.dropWhile, hc]
  have h2 : ((c :: rest) ++ ['。']).reverse.dropWhile isPySpace =
      ((c :: rest) ++ ['。']).reverse := by
    rw [List.reverse_append]
    simp [List.dropWhile, hstop]
  rw [h1, h2, List.reverse_reverse]

/-- C9 amended: for every non-empty input text that contains no
sentence-splitting punctuation, is left unchanged by the chunker's
whitespace normalization and stripping (so whitespace appears only as
single internal spaces), has no domain-term match, and whose length is
at most the configured max chunk size, chunking produces exactly one
chunk — the input followed by the sentence terminator `。` — and that
chunk contains the full input text. -/
theorem single_chunk_amended (chunkSize overlapSize : Nat) (t : Str)
    (hne : t ≠ [])
    (hsplit : ∀ c ∈ t, isSplitterChar c = false)
    (hclean : collapseSpaces (collapseNewlines t) = t)
    (hstrip : stripStr t = t)
    (hdt : hasDomainTermMatch t = false)
    (hlen : t.length ≤ chunkSize) :
    smartTextChunking chunkSize overlapSize t = [t ++ ['。']] ∧
    strContains (t ++ ['。']) t = true := by
  have hsent : splitSentences t = [t] := by
    unfold splitSentences
    rw [splitSentencesAux_no_splitter t hsplit []]
    simp
  have hclean1 : cleanSentences [t] = [t] := by
    unfold cleanSentences
    simp [hstrip, hne]
  have hstrip2 : stripStr (t ++ ['。']) = t ++ ['。'] := strip_append_stop t hne hstrip
  have happne : t ++ ['。'] ≠ [] := by simp
  constructor
  · unfold smartTextChunking
    rw [if_neg (fun hteq => hne (hstrip ▸ hteq))]
    simp only []
    rw [hclean, hsent, hclean1]
    rw [if_neg (List.cons_ne_nil _ _)]
    have hfold : List.foldl (chunkStep chunkSize) ([], []) [t] = ([], t ++ ['。']) := by
      simp only [List.foldl_cons, List.foldl_nil]
      unfold chunkStep
      simp only [List.nil_append]
      by_cases hfit : (t ++ ['。']).length ≤ chunkSize
      · rw [if_pos hfit]
      · rw [if_neg hfit, if_neg (not_lt.2 hlen), if_neg (fun hcontra => hcontra rfl)]
    rw [hfold]
    simp only []
    rw [if_pos happne]
    simp only [List.nil_append]
    rw [hstrip2]
    rw [if_neg (by simp)]
    simp [List.filter, hstrip2, happne]
  · exact decide_eq_true ⟨[], ['。'], by simp⟩

theorem single_chunk_amended_witness :
    smartTextChunking 3 50 (strOf "a b") = [strOf "a b" ++ ['。']] ∧
    strContains (strOf "a b" ++ ['。']) (strOf "a b") = true :=
  single_chunk_amended 3 50 (strOf "a b") (by decide) (by decide) (by decide)
    (by decide) (by decide) (by decide)
